import Mathlib

/-!
Shallow embedding of the order lifecycle and algorithmic execution engine of
src/backend/trading/advanced_trading_engine.py (classes AdvancedOrderManager,
AlgorithmicTrading, TradingAPI).

Modelling conventions:
* Python floats are modelled as exact rationals (ℚ).
* uuid4 order ids are modelled by a monotone counter (EngineState.next_id);
  trade ids by the position in the trade log.  Only distinctness matters.
* datetime fields (created_at, updated_at, timestamp, expires_at) are omitted:
  no modelled operation reads them.
* The random volume_24h / change_24h entries of the market-data dict are
  omitted: no modelled operation reads them.
* The Python dicts self.orders / self.market_data are modelled as association
  lists; dict mutation of a stored order is modelled by functional update.
* Exceptions raised while constructing an Order inside place_order are
  modelled by Except String; the try/except of place_order becomes a match.
-/

namespace Crs

inductive OrderType
  | market
  | limit
  | stopLoss
  | takeProfit
  | trailingStop
  | oco
  | iceberg
  | twap
  | vwap
deriving DecidableEq, Repr

inductive OrderSide
  | buy
  | sell
deriving DecidableEq, Repr

inductive OrderStatus
  | pending
  | partiallyFilled
  | filled
  | cancelled
  | rejected
  | expired
deriving DecidableEq, Repr

inductive TimeInForce
  | gtc
  | ioc
  | fok
  | day
deriving DecidableEq, Repr

/-- The Order dataclass (datetime fields omitted, see module comment). -/
structure Order where
  id : Nat
  user_id : String
  symbol : String
  side : OrderSide
  order_type : OrderType
  quantity : ℚ
  price : Option ℚ
  stop_price : Option ℚ
  trail_amount : Option ℚ
  trail_percent : Option ℚ
  time_in_force : TimeInForce
  status : OrderStatus
  filled_quantity : ℚ
  average_fill_price : ℚ
  iceberg_visible_quantity : Option ℚ
  twap_duration_minutes : Option Nat
  parent_order_id : Option Nat
deriving DecidableEq, Repr

/-- The Trade dataclass (timestamp omitted; fee_currency is a constant). -/
structure Trade where
  id : Nat
  order_id : Nat
  symbol : String
  side : OrderSide
  quantity : ℚ
  price : ℚ
  fee : ℚ
deriving DecidableEq, Repr

/-- One entry of self.market_data (bid / ask / last; random fields omitted). -/
structure Quote where
  bid : ℚ
  ask : ℚ
  last : ℚ
deriving DecidableEq, Repr

/-- A raw value found under the quantity key of an order_data dict:
either convertible by float(...) or not. -/
inductive RawQty
  | num (q : ℚ)
  | malformed
deriving DecidableEq, Repr

/-- The raw order_data dict passed to place_order.  A field is none when the
key is absent from the dict. -/
structure OrderData where
  user_id : Option String
  symbol : Option String
  side : Option String
  order_type : Option String
  quantity : Option RawQty
  price : Option ℚ
  stop_price : Option ℚ
  trail_amount : Option ℚ
  trail_percent : Option ℚ
  time_in_force : Option String
  iceberg_visible_quantity : Option ℚ
  twap_duration_minutes : Option Nat
deriving DecidableEq, Repr

/-- State of an AdvancedOrderManager instance. -/
structure EngineState where
  orders : List Order
  trades : List Trade
  market_data : List (String × Quote)
  maker_fee : ℚ
  taker_fee : ℚ
  next_id : Nat
deriving DecidableEq, Repr

/-- Dict lookup in self.market_data. -/
def lookupSym : List (String × Quote) → String → Option Quote
  | [], _ => none
  | (k, v) :: rest, s => if k = s then some v else lookupSym rest s

/-- Dict lookup in self.orders. -/
def findOrder : List Order → Nat → Option Order
  | [], _ => none
  | o :: rest, oid => if o.id = oid then some o else findOrder rest oid

/-- Mutation of the order stored under an id (ids are unique in every
reachable state, so at most one entry changes). -/
def setStatus (orders : List Order) (oid : Nat) (s : OrderStatus) : List Order :=
  orders.map (fun o => if o.id = oid then { o with status := s } else o)

/-- OrderSide(value): raises ValueError on anything but "buy" / "sell". -/
def parseSide : String → Except String OrderSide
  | "buy" => .ok .buy
  | "sell" => .ok .sell
  | s => .error ("ValueError: " ++ s ++ " is not a valid OrderSide")

/-- OrderType(value). -/
def parseType : String → Except String OrderType
  | "market" => .ok .market
  | "limit" => .ok .limit
  | "stop_loss" => .ok .stopLoss
  | "take_profit" => .ok .takeProfit
  | "trailing_stop" => .ok .trailingStop
  | "oco" => .ok .oco
  | "iceberg" => .ok .iceberg
  | "twap" => .ok .twap
  | "vwap" => .ok .vwap
  | s => .error ("ValueError: " ++ s ++ " is not a valid OrderType")

/-- TimeInForce(value). -/
def parseTif : String → Except String TimeInForce
  | "gtc" => .ok .gtc
  | "ioc" => .ok .ioc
  | "fok" => .ok .fok
  | "day" => .ok .day
  | s => .error ("ValueError: " ++ s ++ " is not a valid TimeInForce")

/-- float(raw): ValueError when the raw value is not numeric. -/
def parseQty : RawQty → Except String ℚ
  | .num q => .ok q
  | .malformed => .error "ValueError: could not convert string to float"

/-- order_data[key]: KeyError when the key is absent. -/
def reqKey {α : Type} : Option α → String → Except String α
  | some a, _ => .ok a
  | none, k => .error ("KeyError: " ++ k)

/-- The Order(...) construction inside place_order, with Python's
left-to-right argument evaluation order; the first exception wins. -/
def buildOrder (oid : Nat) (d : OrderData) : Except String Order :=
  match reqKey d.user_id "user_id" with
  | .error e => .error e
  | .ok uid =>
    match reqKey d.symbol "symbol" with
    | .error e => .error e
    | .ok sym =>
      match reqKey d.side "side" with
      | .error e => .error e
      | .ok sideS =>
        match parseSide sideS with
        | .error e => .error e
        | .ok sd =>
          match reqKey d.order_type "order_type" with
          | .error e => .error e
          | .ok otS =>
            match parseType otS with
            | .error e => .error e
            | .ok ot =>
              match reqKey d.quantity "quantity" with
              | .error e => .error e
              | .ok rq =>
                match parseQty rq with
                | .error e => .error e
                | .ok qty =>
                  match parseTif (Option.getD d.time_in_force "gtc") with
                  | .error e => .error e
                  | .ok tif =>
                    .ok { id := oid, user_id := uid, symbol := sym, side := sd,
                          order_type := ot, quantity := qty, price := d.price,
                          stop_price := d.stop_price,
                          trail_amount := d.trail_amount,
                          trail_percent := d.trail_percent,
                          time_in_force := tif, status := .pending,
                          filled_quantity := 0, average_fill_price := 0,
                          iceberg_visible_quantity := d.iceberg_visible_quantity,
                          twap_duration_minutes := d.twap_duration_minutes,
                          parent_order_id := none }

/-- Python truthiness test `not p or p <= 0` on an optional float:
true for a missing value, and for a present value ≤ 0 (`not 0.0` is true and
0 ≤ 0, so falsiness collapses into the ≤ 0 test). -/
def missingOrNonpos : Option ℚ → Bool
  | none => true
  | some x => x ≤ 0

/-- Python truthiness test `not p` on an optional float: true for a missing
value or a present 0. -/
def falsyQ : Option ℚ → Bool
  | none => true
  | some x => x = 0

/-- AdvancedOrderManager._validate_order: the first failing check wins. -/
def validate_order (md : List (String × Quote)) (o : Order) : Option String :=
  if lookupSym md o.symbol = none then
    some ("Invalid symbol: " ++ o.symbol)
  else if o.quantity ≤ 0 then
    some "Quantity must be positive"
  else if o.order_type = .limit ∧ missingOrNonpos o.price = true then
    some "Limit orders require a valid price"
  else if (o.order_type = .stopLoss ∨ o.order_type = .takeProfit) ∧
      missingOrNonpos o.stop_price = true then
    some "Stop orders require a valid stop price"
  else if o.order_type = .trailingStop ∧ falsyQ o.trail_amount = true ∧
      falsyQ o.trail_percent = true then
    some "Trailing stop orders require trail amount or trail percent"
  else
    none

/-- The execution price chosen by a market order: a buy takes the ask, a
sell takes the bid. -/
def sidePrice : OrderSide → Quote → ℚ
  | .buy, q => q.ask
  | .sell, q => q.bid

/-- AdvancedOrderManager._execute_market_order.  The lookup cannot fail after
validation; the none branch (a KeyError in the source) is unreachable. -/
def execute_market_order (st : EngineState) (o : Order) : EngineState × Order :=
  match lookupSym st.market_data o.symbol with
  | none => (st, o)
  | some q =>
    let px : ℚ := sidePrice o.side q
    let tr : Trade := { id := st.trades.length, order_id := o.id,
                        symbol := o.symbol, side := o.side,
                        quantity := o.quantity, price := px,
                        fee := o.quantity * px * st.taker_fee }
    ({ st with trades := st.trades ++ [tr] },
     { o with filled_quantity := o.quantity, average_fill_price := px,
              status := .filled })

/-- AdvancedOrderManager._check_limit_order_execution.  The price is a
present value for every validated limit order; the fallback branches are
unreachable after validation. -/
def check_limit_order_execution (st : EngineState) (o : Order) :
    EngineState × Order :=
  match lookupSym st.market_data o.symbol, o.price with
  | some q, some p =>
    if (o.side = OrderSide.buy ∧ q.ask ≤ p) ∨
        (o.side = OrderSide.sell ∧ q.bid ≥ p) then
      let tr : Trade := { id := st.trades.length, order_id := o.id,
                          symbol := o.symbol, side := o.side,
                          quantity := o.quantity, price := p,
                          fee := o.quantity * p * st.maker_fee }
      ({ st with trades := st.trades ++ [tr] },
       { o with filled_quantity := o.quantity, average_fill_price := p,
                status := .filled })
    else (st, o)
  | _, _ => (st, o)

/-- Immediate execution attempt after storing a freshly validated order. -/
def executeNew (st : EngineState) (o : Order) : EngineState × Order :=
  match o.order_type with
  | .market => execute_market_order st o
  | .limit => check_limit_order_execution st o
  | _ => (st, o)

/-- Result dict of place_order. -/
inductive PlaceResult
  | failure (error : String)
  | rejectedSpec (order_id : Nat) (error : String)
  | placed (order_id : Nat) (status : OrderStatus)
deriving DecidableEq, Repr

/-- AdvancedOrderManager.place_order. -/
def place_order (st : EngineState) (d : OrderData) : EngineState × PlaceResult :=
  match buildOrder st.next_id d with
  | .error e => (st, .failure e)
  | .ok o =>
    match validate_order st.market_data o with
    | some e =>
      ({ st with orders := st.orders ++ [{ o with status := .rejected }],
                 next_id := st.next_id + 1 },
       .rejectedSpec o.id e)
    | none =>
      let r := executeNew st o
      ({ r.1 with orders := r.1.orders ++ [r.2], next_id := st.next_id + 1 },
       .placed r.2.id r.2.status)

/-- Result dict of cancel_order. -/
inductive CancelResult
  | notFound
  | unauthorized
  | conflict (status : OrderStatus)
  | ok
deriving DecidableEq, Repr

/-- AdvancedOrderManager.cancel_order. -/
def cancel_order (st : EngineState) (oid : Nat) (uid : String) :
    EngineState × CancelResult :=
  match findOrder st.orders oid with
  | none => (st, .notFound)
  | some o =>
    if o.user_id ≠ uid then (st, .unauthorized)
    else if o.status = OrderStatus.filled ∨ o.status = OrderStatus.cancelled then
      (st, .conflict o.status)
    else
      ({ st with orders := setStatus st.orders oid .cancelled }, .ok)

/-- The order_data dict built by a TWAP or VWAP child slice:
a market / IOC order. -/
def childMarketData (uid sym sd : String) (q : ℚ) : OrderData :=
  { user_id := some uid, symbol := some sym, side := some sd,
    order_type := some "market", quantity := some (.num q), price := none,
    stop_price := none, trail_amount := none, trail_percent := none,
    time_in_force := some "ioc", iceberg_visible_quantity := none,
    twap_duration_minutes := none }

/-- The Order that buildOrder constructs from childMarketData. -/
def marketChildOrder (oid : Nat) (uid sym : String) (s : OrderSide) (cq : ℚ) :
    Order :=
  { id := oid, user_id := uid, symbol := sym, side := s, order_type := .market,
    quantity := cq, price := none, stop_price := none, trail_amount := none,
    trail_percent := none, time_in_force := .ioc, status := .pending,
    filled_quantity := 0, average_fill_price := 0,
    iceberg_visible_quantity := none, twap_duration_minutes := none,
    parent_order_id := none }

/-- The for-loop of execute_twap_strategy: place the same child order n
times, collecting the ids of the successful placements. -/
def placeLoop : EngineState → OrderData → Nat → EngineState × List Nat
  | st, _, 0 => (st, [])
  | st, d, Nat.succ n =>
    let p := place_order st d
    let rest := placeLoop p.1 d n
    match p.2 with
    | .placed oid _ => (rest.1, oid :: rest.2)
    | _ => rest

/-- Summary dict returned by execute_twap_strategy. -/
structure TwapReport where
  total_quantity : ℚ
  duration_minutes : Nat
  orders_placed : List Nat
  chunk_size : ℚ
  num_chunks : Nat
deriving DecidableEq, Repr

/-- AlgorithmicTrading.execute_twap_strategy.  The source demands an integer
duration; duration_minutes = 0 raises ZeroDivisionError in the source and is
outside every claim (in the model the division then yields 0). -/
def execute_twap_strategy (st : EngineState) (uid sym sd : String)
    (total_quantity : ℚ) (duration_minutes : Nat) : EngineState × TwapReport :=
  let num_chunks := min duration_minutes 20
  let chunk_size := total_quantity / (num_chunks : ℚ)
  let r := placeLoop st (childMarketData uid sym sd chunk_size) num_chunks
  (r.1, { total_quantity := total_quantity,
          duration_minutes := duration_minutes, orders_placed := r.2,
          chunk_size := chunk_size, num_chunks := num_chunks })

/-- AlgorithmicTrading._get_volume_profile (insertion order of the dict). -/
def volumeProfile : List (String × ℚ) :=
  [("09:00-10:00", 15/100), ("10:00-11:00", 12/100), ("11:00-12:00", 8/100),
   ("12:00-13:00", 6/100), ("13:00-14:00", 8/100), ("14:00-15:00", 10/100),
   ("15:00-16:00", 12/100), ("16:00-17:00", 15/100), ("17:00-18:00", 14/100)]

/-- The for-loop of execute_vwap_strategy over the profile buckets, carrying
remaining_quantity; returns (state, orders_placed, remaining_quantity). -/
def vwapLoop : EngineState → String → String → String → ℚ → ℚ →
    List (String × ℚ) → EngineState × List Nat × ℚ
  | st, _, _, _, _, rem, [] => (st, [], rem)
  | st, uid, sym, sd, total, rem, (_, w) :: rest =>
    if rem ≤ 0 then (st, [], rem)
    else
      let slot := min (total * w) rem
      if 0 < slot then
        let p := place_order st (childMarketData uid sym sd slot)
        match p.2 with
        | .placed oid _ =>
          let r := vwapLoop p.1 uid sym sd total (rem - slot) rest
          (r.1, oid :: r.2.1, r.2.2)
        | _ => vwapLoop p.1 uid sym sd total rem rest
      else vwapLoop st uid sym sd total rem rest

/-- Summary dict returned by execute_vwap_strategy. -/
structure VwapReport where
  total_quantity : ℚ
  executed_quantity : ℚ
  orders_placed : List Nat
deriving DecidableEq, Repr

/-- AlgorithmicTrading.execute_vwap_strategy. -/
def execute_vwap_strategy (st : EngineState) (uid sym sd : String)
    (total_quantity : ℚ) : EngineState × VwapReport :=
  let r := vwapLoop st uid sym sd total_quantity total_quantity volumeProfile
  (r.1, { total_quantity := total_quantity,
          executed_quantity := total_quantity - r.2.2,
          orders_placed := r.2.1 })

/-- Result dict of create_oco_order. -/
structure OcoResult where
  success : Bool
  limit_order_id : Option Nat
  stop_order_id : Option Nat
deriving DecidableEq, Repr

/-- The limit-leg order_data dict of create_oco_order. -/
def ocoLimitData (uid sym sd : String) (q p : ℚ) : OrderData :=
  { user_id := some uid, symbol := some sym, side := some sd,
    order_type := some "limit", quantity := some (.num q), price := some p,
    stop_price := none, trail_amount := none, trail_percent := none,
    time_in_force := some "gtc", iceberg_visible_quantity := none,
    twap_duration_minutes := none }

/-- The stop-leg order_data dict of create_oco_order. -/
def ocoStopData (uid sym sd : String) (q sp : ℚ) : OrderData :=
  { user_id := some uid, symbol := some sym, side := some sd,
    order_type := some "stop_loss", quantity := some (.num q), price := none,
    stop_price := some sp, trail_amount := none, trail_percent := none,
    time_in_force := some "gtc", iceberg_visible_quantity := none,
    twap_duration_minutes := none }

/-- AlgorithmicTrading.create_oco_order: places two independent orders; no
parent_order_id is ever set (the source comment reads: in real
implementation, would set parent_order_id). -/
def create_oco_order (st : EngineState) (uid sym sd : String)
    (quantity limit_price stop_price : ℚ) : EngineState × OcoResult :=
  let stop_side := if sd = "buy" then "sell" else "buy"
  let p1 := place_order st (ocoLimitData uid sym sd quantity limit_price)
  let p2 := place_order p1.1 (ocoStopData uid sym stop_side quantity stop_price)
  match p1.2, p2.2 with
  | .placed lid _, .placed sid _ =>
    (p2.1, { success := true, limit_order_id := some lid,
             stop_order_id := some sid })
  | _, _ =>
    (p2.1, { success := false, limit_order_id := none, stop_order_id := none })

/-- Market-data entry built by _initialize_market_data for one symbol. -/
def initQuote (p : ℚ) : Quote :=
  { bid := p * (999/1000), ask := p * (1001/1000), last := p }

/-- The five symbols and base prices of _initialize_market_data. -/
def initMarketData : List (String × Quote) :=
  [("BTC/DGD", initQuote (3584/10)), ("ETH/DGD", initQuote (223/10)),
   ("ADA/DGD", initQuote (36/10000)), ("DOT/DGD", initQuote (52/1000)),
   ("LINK/DGD", initQuote (113/1000))]

/-- A freshly constructed AdvancedOrderManager: empty stores, maker fee
0.1 percent, taker fee 0.15 percent. -/
def initState : EngineState :=
  { orders := [], trades := [], market_data := initMarketData,
    maker_fee := 1/1000, taker_fee := 15/10000, next_id := 0 }

/-- Sum of the quantities of the trades in the log that refer to an order. -/
def tradesFor (ts : List Trade) (oid : Nat) : ℚ :=
  ((ts.filter (fun t => t.order_id == oid)).map Trade.quantity).sum

/-- Fill accounting over the whole store: filled_quantity is nonnegative,
bounded by the quantity whenever the quantity is positive, and equal to the
sum of the order's logged trade quantities. -/
def FillBounds (st : EngineState) : Prop :=
  ∀ o ∈ st.orders, 0 ≤ o.filled_quantity ∧
    (0 < o.quantity → o.filled_quantity ≤ o.quantity) ∧
    tradesFor st.trades o.id = o.filled_quantity

/-- Every stored order id and every logged trade's order id was allocated
below the id counter. -/
def Fresh (st : EngineState) : Prop :=
  (∀ o ∈ st.orders, o.id < st.next_id) ∧ ∀ t ∈ st.trades, t.order_id < st.next_id

/-- The engine-state invariant maintained by every operation. -/
def WF (st : EngineState) : Prop := Fresh st ∧ FillBounds st

/-- The per-check error priority of _validate_order: the first failing check
determines the reported reason, in the source's order — symbol, quantity,
limit price, stop price, trailing parameters. -/
def ValidationPriority (md : List (String × Quote)) (o : Order) : Prop :=
  (lookupSym md o.symbol = none →
    validate_order md o = some ("Invalid symbol: " ++ o.symbol)) ∧
  (lookupSym md o.symbol ≠ none → o.quantity ≤ 0 →
    validate_order md o = some "Quantity must be positive") ∧
  (lookupSym md o.symbol ≠ none → 0 < o.quantity →
    ((o.order_type = OrderType.limit → missingOrNonpos o.price = true →
        validate_order md o = some "Limit orders require a valid price") ∧
     ((o.order_type = OrderType.stopLoss ∨ o.order_type = OrderType.takeProfit) →
        missingOrNonpos o.stop_price = true →
        validate_order md o = some "Stop orders require a valid stop price") ∧
     (o.order_type = OrderType.trailingStop → falsyQ o.trail_amount = true →
        falsyQ o.trail_percent = true →
        validate_order md o =
          some "Trailing stop orders require trail amount or trail percent") ∧
     (¬(o.order_type = OrderType.limit ∧ missingOrNonpos o.price = true) →
      ¬((o.order_type = OrderType.stopLoss ∨ o.order_type = OrderType.takeProfit) ∧
          missingOrNonpos o.stop_price = true) →
      ¬(o.order_type = OrderType.trailingStop ∧ falsyQ o.trail_amount = true ∧
          falsyQ o.trail_percent = true) →
      validate_order md o = none)))

/-- order_data of a market buy of 0.1 BTC (scenario seed 1 of the spec). -/
def dMkt01 : OrderData :=
  { user_id := some "u", symbol := some "BTC/DGD", side := some "buy",
    order_type := some "market", quantity := some (.num (1/10)), price := none,
    stop_price := none, trail_amount := none, trail_percent := none,
    time_in_force := none, iceberg_visible_quantity := none,
    twap_duration_minutes := none }

/-- The Order built from dMkt01 (id 0, defaults applied). -/
def oMkt01 : Order :=
  { id := 0, user_id := "u", symbol := "BTC/DGD", side := .buy,
    order_type := .market, quantity := 1/10, price := none, stop_price := none,
    trail_amount := none, trail_percent := none, time_in_force := .gtc,
    status := .pending, filled_quantity := 0, average_fill_price := 0,
    iceberg_visible_quantity := none, twap_duration_minutes := none,
    parent_order_id := none }

/-- The stored order after dMkt01 executes: filled at the BTC ask. -/
def oMkt01F : Order :=
  { oMkt01 with status := .filled, filled_quantity := 1/10,
                average_fill_price := 3584/10 * (1001/1000) }

/-- order_data of a marketable limit buy of 1 ETH at 23 (the snapshot ask is
22.3223, so it crosses at placement). -/
def dLim23 : OrderData :=
  { user_id := some "u", symbol := some "ETH/DGD", side := some "buy",
    order_type := some "limit", quantity := some (.num 1), price := some 23,
    stop_price := none, trail_amount := none, trail_percent := none,
    time_in_force := none, iceberg_visible_quantity := none,
    twap_duration_minutes := none }

/-- The Order built from dLim23 (id 0). -/
def oLim23 : Order :=
  { id := 0, user_id := "u", symbol := "ETH/DGD", side := .buy,
    order_type := .limit, quantity := 1, price := some 23, stop_price := none,
    trail_amount := none, trail_percent := none, time_in_force := .gtc,
    status := .pending, filled_quantity := 0, average_fill_price := 0,
    iceberg_visible_quantity := none, twap_duration_minutes := none,
    parent_order_id := none }

/-- order_data of a resting limit buy of 1 ETH at 22 (the snapshot ask is
22.3223, so it does not cross; scenario seed 2 of the spec). -/
def dLim22 : OrderData :=
  { user_id := some "u", symbol := some "ETH/DGD", side := some "buy",
    order_type := some "limit", quantity := some (.num 1), price := some 22,
    stop_price := none, trail_amount := none, trail_percent := none,
    time_in_force := none, iceberg_visible_quantity := none,
    twap_duration_minutes := none }

/-- The Order built from dLim22 (id 0). -/
def oLim22 : Order :=
  { id := 0, user_id := "u", symbol := "ETH/DGD", side := .buy,
    order_type := .limit, quantity := 1, price := some 22, stop_price := none,
    trail_amount := none, trail_percent := none, time_in_force := .gtc,
    status := .pending, filled_quantity := 0, average_fill_price := 0,
    iceberg_visible_quantity := none, twap_duration_minutes := none,
    parent_order_id := none }

/-- order_data of a market buy whose quantity 0 fails validation. -/
def dZeroQty : OrderData :=
  { user_id := some "u", symbol := some "BTC/DGD", side := some "buy",
    order_type := some "market", quantity := some (.num 0), price := none,
    stop_price := none, trail_amount := none, trail_percent := none,
    time_in_force := none, iceberg_visible_quantity := none,
    twap_duration_minutes := none }

/-- order_data of a market buy whose quantity -1 fails validation. -/
def dNegQty : OrderData :=
  { user_id := some "u", symbol := some "BTC/DGD", side := some "buy",
    order_type := some "market", quantity := some (.num (-1)), price := none,
    stop_price := none, trail_amount := none, trail_percent := none,
    time_in_force := none, iceberg_visible_quantity := none,
    twap_duration_minutes := none }

/-- order_data with no user_id key: Order construction raises KeyError. -/
def dNoUser : OrderData :=
  { user_id := none, symbol := some "BTC/DGD", side := some "buy",
    order_type := some "market", quantity := some (.num 1), price := none,
    stop_price := none, trail_amount := none, trail_percent := none,
    time_in_force := none, iceberg_visible_quantity := none,
    twap_duration_minutes := none }

/-- order_data of a market buy on a symbol unknown to the market data. -/
def dBadSym : OrderData :=
  { user_id := some "u", symbol := some "XYZ/DGD", side := some "buy",
    order_type := some "market", quantity := some (.num 1), price := none,
    stop_price := none, trail_amount := none, trail_percent := none,
    time_in_force := none, iceberg_visible_quantity := none,
    twap_duration_minutes := none }

/-- The Order built from dBadSym (id 0). -/
def oBadSym : Order :=
  { id := 0, user_id := "u", symbol := "XYZ/DGD", side := .buy,
    order_type := .market, quantity := 1, price := none, stop_price := none,
    trail_amount := none, trail_percent := none, time_in_force := .gtc,
    status := .pending, filled_quantity := 0, average_fill_price := 0,
    iceberg_visible_quantity := none, twap_duration_minutes := none,
    parent_order_id := none }


theorem lookup_btc :
    lookupSym initMarketData "BTC/DGD" = some (initQuote (3584/10)) := rfl

theorem lookup_eth :
    lookupSym initMarketData "ETH/DGD" = some (initQuote (223/10)) := rfl

theorem lookup_xyz : lookupSym initMarketData "XYZ/DGD" = none := rfl

theorem buildOrder_fields (oid : Nat) (d : OrderData) (o : Order)
    (h : buildOrder oid d = Except.ok o) :
    o.id = oid ∧ o.status = OrderStatus.pending ∧ o.filled_quantity = 0 ∧
    o.average_fill_price = 0 ∧ o.parent_order_id = none := by
  unfold buildOrder at h
  repeat' split at h
  all_goals first
    | (injection h with h2; subst h2; exact ⟨rfl, rfl, rfl, rfl, rfl⟩)
    | simp at h

theorem missingOrNonpos_false (x : Option ℚ) (h : missingOrNonpos x = false) :
    ∃ p, x = some p ∧ 0 < p := by
  cases x with
  | none => simp [missingOrNonpos] at h
  | some p =>
    simp [missingOrNonpos] at h
    exact ⟨p, rfl, h⟩

theorem validate_none_facts (md : List (String × Quote)) (o : Order)
    (h : validate_order md o = none) :
    lookupSym md o.symbol ≠ none ∧ 0 < o.quantity ∧
    (o.order_type = OrderType.limit → ∃ p, o.price = some p ∧ 0 < p) := by
  unfold validate_order at h
  split at h
  · exact absurd h (by simp)
  split at h
  · exact absurd h (by simp)
  split at h
  · exact absurd h (by simp)
  split at h
  · exact absurd h (by simp)
  split at h
  · exact absurd h (by simp)
  rename_i h1 h2 h3 h4 h5
  refine ⟨h1, lt_of_not_le h2, ?_⟩
  intro hlim
  have hmp : missingOrNonpos o.price = false := by
    rcases Bool.eq_false_or_eq_true (missingOrNonpos o.price) with ht | hf
    · exact absurd ⟨hlim, ht⟩ h3
    · exact hf
  exact missingOrNonpos_false o.price hmp

theorem place_order_error (st : EngineState) (d : OrderData) (e : String)
    (hb : buildOrder st.next_id d = Except.error e) :
    place_order st d = (st, .failure e) := by
  unfold place_order
  rw [hb]

theorem place_order_invalid (st : EngineState) (d : OrderData) (o : Order)
    (e : String) (hb : buildOrder st.next_id d = Except.ok o)
    (hv : validate_order st.market_data o = some e) :
    place_order st d =
      ({ st with orders := st.orders ++ [{ o with status := .rejected }],
                 next_id := st.next_id + 1 },
       .rejectedSpec o.id e) := by
  simp only [place_order, hb, hv]

theorem place_order_valid (st : EngineState) (d : OrderData) (o : Order)
    (hb : buildOrder st.next_id d = Except.ok o)
    (hv : validate_order st.market_data o = none) :
    place_order st d =
      ({ (executeNew st o).1 with
          orders := (executeNew st o).1.orders ++ [(executeNew st o).2],
          next_id := st.next_id + 1 },
       .placed (executeNew st o).2.id (executeNew st o).2.status) := by
  simp only [place_order, hb, hv]

theorem execute_market_eq (st : EngineState) (o : Order) (q : Quote)
    (hq : lookupSym st.market_data o.symbol = some q) :
    execute_market_order st o =
      ({ st with trades := st.trades ++
          [{ id := st.trades.length, order_id := o.id, symbol := o.symbol,
             side := o.side, quantity := o.quantity, price := sidePrice o.side q,
             fee := o.quantity * sidePrice o.side q * st.taker_fee }] },
       { o with filled_quantity := o.quantity,
                average_fill_price := sidePrice o.side q, status := .filled }) := by
  unfold execute_market_order
  rw [hq]

theorem check_limit_eq (st : EngineState) (o : Order) (q : Quote) (p : ℚ)
    (hq : lookupSym st.market_data o.symbol = some q) (hp : o.price = some p) :
    check_limit_order_execution st o =
      if (o.side = OrderSide.buy ∧ q.ask ≤ p) ∨
          (o.side = OrderSide.sell ∧ q.bid ≥ p) then
        ({ st with trades := st.trades ++
            [{ id := st.trades.length, order_id := o.id, symbol := o.symbol,
               side := o.side, quantity := o.quantity, price := p,
               fee := o.quantity * p * st.maker_fee }] },
         { o with filled_quantity := o.quantity, average_fill_price := p,
                  status := .filled })
      else (st, o) := by
  unfold check_limit_order_execution
  rw [hq, hp]

theorem executeNew_market (st : EngineState) (o : Order)
    (ho : o.order_type = OrderType.market) :
    executeNew st o = execute_market_order st o := by
  unfold executeNew
  rw [ho]

theorem executeNew_limit (st : EngineState) (o : Order)
    (ho : o.order_type = OrderType.limit) :
    executeNew st o = check_limit_order_execution st o := by
  unfold executeNew
  rw [ho]

theorem executeNew_other (st : EngineState) (o : Order)
    (h1 : o.order_type ≠ OrderType.market) (h2 : o.order_type ≠ OrderType.limit) :
    executeNew st o = (st, o) := by
  unfold executeNew
  cases ho : o.order_type <;> first | rfl | exact absurd ho h1 | exact absurd ho h2

theorem tradesFor_cons (t : Trade) (ts : List Trade) (oid : Nat) :
    tradesFor (t :: ts) oid =
      (if t.order_id = oid then t.quantity else 0) + tradesFor ts oid := by
  by_cases h : t.order_id = oid <;> simp [tradesFor, List.filter_cons, h]

theorem tradesFor_append (ts : List Trade) (t : Trade) (oid : Nat) :
    tradesFor (ts ++ [t]) oid =
      tradesFor ts oid + if t.order_id = oid then t.quantity else 0 := by
  by_cases h : t.order_id = oid <;>
    simp [tradesFor, List.filter_append, List.filter_cons, h]

theorem tradesFor_fresh (ts : List Trade) (n oid : Nat)
    (h : ∀ t ∈ ts, t.order_id < n) (hn : n ≤ oid) : tradesFor ts oid = 0 := by
  induction ts with
  | nil => simp [tradesFor]
  | cons t rest ih =>
    have ht := h t (by simp)
    rw [tradesFor_cons]
    rw [if_neg (by omega)]
    rw [ih (fun x hx => h x (by simp [hx]))]
    simp

theorem WF_append_unfilled (st : EngineState) (hwf : WF st) (o : Order)
    (ho : o.id = st.next_id) (hf : o.filled_quantity = 0) :
    WF { st with orders := st.orders ++ [o], next_id := st.next_id + 1 } := by
  obtain ⟨⟨hfo, hft⟩, hfb⟩ := hwf
  refine ⟨⟨?_, ?_⟩, ?_⟩
  · intro o' ho'
    simp only [List.mem_append, List.mem_singleton] at ho'
    rcases ho' with h | h
    · exact Nat.lt_succ_of_lt (hfo o' h)
    · subst h; dsimp only; omega
  · intro t ht
    exact Nat.lt_succ_of_lt (hft t ht)
  · intro o' ho'
    simp only [List.mem_append, List.mem_singleton] at ho'
    rcases ho' with h | h
    · exact hfb o' h
    · subst h
      refine ⟨by rw [hf], fun hq => by rw [hf]; exact le_of_lt hq, ?_⟩
      rw [ho, hf]
      exact tradesFor_fresh st.trades st.next_id st.next_id hft le_rfl

theorem WF_append_filled (st : EngineState) (hwf : WF st) (o : Order)
    (tr : Trade) (ho : o.id = st.next_id) (hq : 0 < o.quantity)
    (hfo : o.filled_quantity = o.quantity) (htr : tr.order_id = st.next_id)
    (htq : tr.quantity = o.quantity) :
    WF { st with orders := st.orders ++ [o], trades := st.trades ++ [tr],
                 next_id := st.next_id + 1 } := by
  obtain ⟨⟨hf1, hf2⟩, hfb⟩ := hwf
  refine ⟨⟨?_, ?_⟩, ?_⟩
  · intro o' ho'
    simp only [List.mem_append, List.mem_singleton] at ho'
    rcases ho' with h | h
    · exact Nat.lt_succ_of_lt (hf1 o' h)
    · subst h; dsimp only; omega
  · intro t ht
    simp only [List.mem_append, List.mem_singleton] at ht
    rcases ht with h | h
    · exact Nat.lt_succ_of_lt (hf2 t h)
    · subst h; dsimp only; omega
  · intro o' ho'
    simp only [List.mem_append, List.mem_singleton] at ho'
    rcases ho' with h | h
    · obtain ⟨h1, h2, h3⟩ := hfb o' h
      refine ⟨h1, h2, ?_⟩
      rw [tradesFor_append, if_neg ?_, add_zero]
      · exact h3
      · have := hf1 o' h
        omega
    · subst h
      refine ⟨by rw [hfo]; exact le_of_lt hq, fun _ => le_of_eq hfo, ?_⟩
      rw [tradesFor_append, ho,
        tradesFor_fresh st.trades st.next_id st.next_id hf2 le_rfl,
        if_pos htr, zero_add, htq, hfo]

theorem WF_setStatus (st : EngineState) (hwf : WF st) (oid : Nat)
    (s : OrderStatus) :
    WF { st with orders := setStatus st.orders oid s } := by
  obtain ⟨⟨hf1, hf2⟩, hfb⟩ := hwf
  refine ⟨⟨?_, hf2⟩, ?_⟩
  · intro o' ho'
    simp only [setStatus, List.mem_map] at ho'
    obtain ⟨o, ho, rfl⟩ := ho'
    split <;> exact hf1 o ho
  · intro o' ho'
    simp only [setStatus, List.mem_map] at ho'
    obtain ⟨o, ho, rfl⟩ := ho'
    have := hfb o ho
    split <;> exact this

theorem place_order_WF (st : EngineState) (hwf : WF st) (d : OrderData) :
    WF (place_order st d).1 := by
  cases hb : buildOrder st.next_id d with
  | error e => rw [place_order_error st d e hb]; exact hwf
  | ok o =>
    obtain ⟨hid, hst, hfq, hap, hpar⟩ := buildOrder_fields st.next_id d o hb
    cases hv : validate_order st.market_data o with
    | some e =>
      rw [place_order_invalid st d o e hb hv]
      dsimp only
      exact WF_append_unfilled st hwf _ hid hfq
    | none =>
      obtain ⟨hsym, hqty, hlim⟩ := validate_none_facts st.market_data o hv
      rw [place_order_valid st d o hb hv]
      cases hsq : lookupSym st.market_data o.symbol with
      | none => exact absurd hsq hsym
      | some q =>
        by_cases hm : o.order_type = OrderType.market
        · rw [executeNew_market st o hm, execute_market_eq st o q hsq]
          dsimp only
          exact WF_append_filled st hwf _ _ hid hqty rfl hid rfl
        · by_cases hl : o.order_type = OrderType.limit
          · obtain ⟨p, hp, hpp⟩ := hlim hl
            rw [executeNew_limit st o hl, check_limit_eq st o q p hsq hp]
            split
            · dsimp only
              exact WF_append_filled st hwf _ _ hid hqty rfl hid rfl
            · dsimp only
              exact WF_append_unfilled st hwf o hid hfq
          · rw [executeNew_other st o hm hl]
            dsimp only
            exact WF_append_unfilled st hwf o hid hfq

theorem cancel_order_WF (st : EngineState) (hwf : WF st) (oid : Nat)
    (uid : String) : WF (cancel_order st oid uid).1 := by
  unfold cancel_order
  split
  · exact hwf
  · split
    · exact hwf
    · split
      · exact hwf
      · exact WF_setStatus st hwf oid .cancelled

theorem placeLoop_WF (d : OrderData) :
    ∀ (n : Nat) (st : EngineState), WF st → WF (placeLoop st d n).1 := by
  intro n
  induction n with
  | zero => intro st h; exact h
  | succ n ih =>
    intro st h
    unfold placeLoop
    dsimp only
    have h2 := ih (place_order st d).1 (place_order_WF st h d)
    split <;> exact h2

theorem vwapLoop_WF (uid sym sd : String) (total : ℚ) :
    ∀ (prof : List (String × ℚ)) (st : EngineState) (rem : ℚ), WF st →
      WF (vwapLoop st uid sym sd total rem prof).1 := by
  intro prof
  induction prof with
  | nil => intro st rem h; exact h
  | cons b rest ih =>
    intro st rem h
    obtain ⟨slot, w⟩ := b
    unfold vwapLoop
    dsimp only
    split
    · exact h
    · split
      · have h2 := ih (place_order st (childMarketData uid sym sd
          (min (total * w) rem))).1 (rem - min (total * w) rem)
          (place_order_WF st h (childMarketData uid sym sd (min (total * w) rem)))
        have h3 := ih (place_order st (childMarketData uid sym sd
          (min (total * w) rem))).1 rem
          (place_order_WF st h (childMarketData uid sym sd (min (total * w) rem)))
        split <;> first | exact h2 | exact h3
      · exact ih st rem h

theorem twap_WF (st : EngineState) (hwf : WF st) (uid sym sd : String)
    (tq : ℚ) (dm : Nat) : WF (execute_twap_strategy st uid sym sd tq dm).1 := by
  unfold execute_twap_strategy
  dsimp only
  exact placeLoop_WF _ _ st hwf

theorem vwap_WF (st : EngineState) (hwf : WF st) (uid sym sd : String)
    (tq : ℚ) : WF (execute_vwap_strategy st uid sym sd tq).1 := by
  unfold execute_vwap_strategy
  dsimp only
  exact vwapLoop_WF uid sym sd tq volumeProfile st tq hwf

theorem oco_WF (st : EngineState) (hwf : WF st) (uid sym sd : String)
    (q lp sp : ℚ) : WF (create_oco_order st uid sym sd q lp sp).1 := by
  unfold create_oco_order
  dsimp only
  have h1 := place_order_WF st hwf (ocoLimitData uid sym sd q lp)
  have h2 := place_order_WF _ h1
    (ocoStopData uid sym (if sd = "buy" then "sell" else "buy") q sp)
  split <;> exact h2

theorem sum_map_quantity_const (l : List Order) (c : ℚ)
    (h : ∀ o ∈ l, o.quantity = c) :
    (l.map Order.quantity).sum = l.length * c := by
  induction l with
  | nil => simp
  | cons a t ih =>
    have ha := h a (by simp)
    have ht := ih (fun o ho => h o (by simp [ho]))
    simp only [List.map_cons, List.sum_cons, List.length_cons, ht, ha]
    push_cast
    ring

theorem buildOrder_child (oid : Nat) (uid sym sdS : String) (s : OrderSide)
    (cq : ℚ) (hparse : parseSide sdS = Except.ok s) :
    buildOrder oid (childMarketData uid sym sdS cq) =
      Except.ok (marketChildOrder oid uid sym s cq) := by
  simp [buildOrder, childMarketData, reqKey, hparse, parseType, parseQty,
    parseTif, marketChildOrder]

theorem validate_child (st : EngineState) (oid : Nat) (uid sym : String)
    (s : OrderSide) (cq : ℚ) (q : Quote)
    (hq : lookupSym st.market_data sym = some q) (hcq : 0 < cq) :
    validate_order st.market_data (marketChildOrder oid uid sym s cq) = none := by
  simp [validate_order, marketChildOrder, hq, hcq.not_le]

theorem place_market_child (st : EngineState) (uid sym sdS : String)
    (s : OrderSide) (cq : ℚ) (q : Quote)
    (hparse : parseSide sdS = Except.ok s)
    (hq : lookupSym st.market_data sym = some q) (hcq : 0 < cq) :
    place_order st (childMarketData uid sym sdS cq) =
      ({ st with
          orders := st.orders ++
            [{ marketChildOrder st.next_id uid sym s cq with
                status := OrderStatus.filled, filled_quantity := cq,
                average_fill_price := sidePrice s q }],
          trades := st.trades ++
            [{ id := st.trades.length, order_id := st.next_id, symbol := sym,
               side := s, quantity := cq, price := sidePrice s q,
               fee := cq * sidePrice s q * st.taker_fee }],
          next_id := st.next_id + 1 },
       .placed st.next_id OrderStatus.filled) := by
  have hb := buildOrder_child st.next_id uid sym sdS s cq hparse
  have hv := validate_child st st.next_id uid sym s cq q hq hcq
  rw [place_order_valid st _ _ hb hv, executeNew_market _ _ rfl,
    execute_market_eq st _ q hq]
  rfl

theorem place_market_child_ex (st : EngineState) (uid sym sdS : String)
    (s : OrderSide) (cq : ℚ) (q : Quote)
    (hparse : parseSide sdS = Except.ok s)
    (hq : lookupSym st.market_data sym = some q) (hcq : 0 < cq) :
    ∃ (o : Order) (st2 : EngineState),
      place_order st (childMarketData uid sym sdS cq) =
        (st2, .placed st.next_id OrderStatus.filled) ∧
      st2.orders = st.orders ++ [o] ∧ st2.market_data = st.market_data ∧
      st2.next_id = st.next_id + 1 ∧ o.quantity = cq := by
  exact ⟨_, _, place_market_child st uid sym sdS s cq q hparse hq hcq,
    rfl, rfl, rfl, rfl⟩

theorem placeLoop_market (uid sym sdS : String) (s : OrderSide) (cq : ℚ)
    (hparse : parseSide sdS = Except.ok s) (hcq : 0 < cq) :
    ∀ (n : Nat) (st : EngineState) (q : Quote),
      lookupSym st.market_data sym = some q →
      ∃ new : List Order,
        (placeLoop st (childMarketData uid sym sdS cq) n).1.orders =
          st.orders ++ new ∧
        new.length = n ∧
        (placeLoop st (childMarketData uid sym sdS cq) n).2.length = n ∧
        ∀ o ∈ new, o.quantity = cq := by
  intro n
  induction n with
  | zero =>
    intro st q hq
    exact ⟨[], by simp [placeLoop], rfl, rfl, by simp⟩
  | succ n ih =>
    intro st q hq
    obtain ⟨o, st2, heq, hords, hmd, _, hoq⟩ :=
      place_market_child_ex st uid sym sdS s cq q hparse hq hcq
    unfold placeLoop
    dsimp only
    rw [heq]
    dsimp only
    obtain ⟨new, h1, h2, h3, h4⟩ := ih st2 q (by rw [hmd]; exact hq)
    refine ⟨o :: new, ?_, ?_, ?_, ?_⟩
    · rw [h1, hords]
      simp
    · simp [h2]
    · simp [h3]
    · intro o' ho'
      rcases List.mem_cons.mp ho' with h | h
      · rw [h, hoq]
      · exact h4 o' h

theorem vwapLoop_halt (st : EngineState) (uid sym sdS : String)
    (total rem : ℚ) (b : String × ℚ) (rest : List (String × ℚ))
    (h : rem ≤ 0) :
    vwapLoop st uid sym sdS total rem (b :: rest) = (st, [], rem) := by
  obtain ⟨nm, w⟩ := b
  unfold vwapLoop
  rw [if_pos h]

theorem vwapLoop_alloc (uid sym sdS : String) (s : OrderSide) (total : ℚ)
    (hparse : parseSide sdS = Except.ok s) :
    ∀ (prof : List (String × ℚ)) (st : EngineState) (rem : ℚ) (q : Quote),
      lookupSym st.market_data sym = some q → 0 ≤ rem →
      ∃ new : List Order,
        (vwapLoop st uid sym sdS total rem prof).1.orders = st.orders ++ new ∧
        0 ≤ (vwapLoop st uid sym sdS total rem prof).2.2 ∧
        (vwapLoop st uid sym sdS total rem prof).2.2 ≤ rem ∧
        (new.map Order.quantity).sum =
          rem - (vwapLoop st uid sym sdS total rem prof).2.2 := by
  intro prof
  induction prof with
  | nil =>
    intro st rem q hq hrem
    exact ⟨[], by simp [vwapLoop], hrem, le_rfl, by simp [vwapLoop]⟩
  | cons b rest ih =>
    intro st rem q hq hrem
    obtain ⟨nm, w⟩ := b
    unfold vwapLoop
    dsimp only
    by_cases h0 : rem ≤ 0
    · rw [if_pos h0]
      exact ⟨[], by simp, hrem, le_rfl, by simp⟩
    · rw [if_neg h0]
      by_cases hs : 0 < min (total * w) rem
      · rw [if_pos hs]
        obtain ⟨o, st2, heq, hords, hmd, _, hoq⟩ :=
          place_market_child_ex st uid sym sdS s (min (total * w) rem) q
            hparse hq hs
        rw [heq]
        dsimp only
        have hslot : min (total * w) rem ≤ rem := min_le_right _ _
        obtain ⟨new, h1, h2, h3, h4⟩ := ih st2 (rem - min (total * w) rem) q
          (by rw [hmd]; exact hq) (by linarith)
        refine ⟨o :: new, ?_, h2, by linarith, ?_⟩
        · dsimp only
          rw [h1, hords]
          simp
        · dsimp only
          rw [List.map_cons, List.sum_cons, h4, hoq]
          ring
      · rw [if_neg hs]
        exact ih st rem q hq hrem

/-- C10: place_order never propagates an exception.  When constructing the
Order raises (a missing required key, an unrecognized side, order type or
time-in-force value, or a quantity that float() rejects), the call returns
the failure result carrying the error message and the engine state — order
store and trade log included — is left completely unchanged: no record, not
even a REJECTED one, is created. -/
theorem place_order_exception_safe (st : EngineState) (d : OrderData)
    (e : String) (hb : buildOrder st.next_id d = Except.error e) :
    place_order st d = (st, .failure e) :=
  place_order_error st d e hb

/-- Witness for C10: a spec missing the user_id key, on the initial state. -/
theorem place_order_exception_safe_witness :
    place_order initState dNoUser = (initState, .failure "KeyError: user_id") :=
  place_order_exception_safe initState dNoUser "KeyError: user_id" rfl

/-- C2 (amended): cancelling an order whose status is FILLED or CANCELLED
leaves the engine state unchanged and returns a conflict error carrying that
status; in particular a second cancel after a successful cancel conflicts.
The claim's further assertion that cancelling a REJECTED or EXPIRED order
also conflicts is refuted by cancel_rejected_returns_success: the source
only guards FILLED and CANCELLED. -/
theorem cancel_terminal_conflict (st : EngineState) (oid : Nat) (uid : String)
    (o : Order) (hf : findOrder st.orders oid = some o) (hu : o.user_id = uid)
    (ht : o.status = OrderStatus.filled ∨ o.status = OrderStatus.cancelled) :
    cancel_order st oid uid = (st, .conflict o.status) := by
  unfold cancel_order
  rw [hf]
  dsimp only
  rw [if_neg (by simp [hu]), if_pos ht]

/-- Witness for C2: cancelling the FILLED market order a second time (the
order filled at placement) conflicts and changes nothing. -/
theorem cancel_terminal_conflict_witness :
    findOrder (place_order initState dMkt01).1.orders 0 = some oMkt01F ∧
    cancel_order (place_order initState dMkt01).1 0 "u" =
      ((place_order initState dMkt01).1, .conflict oMkt01F.status) := by
  have h1 : findOrder (place_order initState dMkt01).1.orders 0 =
      some oMkt01F := by
    norm_num [place_order, buildOrder, reqKey, parseSide, parseType, parseTif,
      parseQty, validate_order, executeNew, execute_market_order,
      check_limit_order_execution, missingOrNonpos, falsyQ, initState,
      initQuote, sidePrice, cancel_order, findOrder, setStatus,
      lookup_btc, lookup_eth, lookup_xyz, dMkt01, oMkt01, oMkt01F]
    iterate 10 (first
      | (simp [oMkt01F, oMkt01]; done)
      | norm_num [place_order, buildOrder, reqKey, parseSide, parseType, parseTif,
      parseQty, validate_order, executeNew, execute_market_order,
      check_limit_order_execution, missingOrNonpos, falsyQ, initState,
      initQuote, sidePrice, cancel_order, findOrder, setStatus,
      lookup_btc, lookup_eth, lookup_xyz, dMkt01, oMkt01, oMkt01F]
      | simp [oMkt01F, oMkt01]
      | skip)
  exact ⟨h1, cancel_terminal_conflict _ 0 "u" oMkt01F h1 rfl (Or.inl rfl)⟩

/-- Counterexample for C2: a REJECTED order (quantity 0 fails validation) is
terminal per the spec, yet cancel_order succeeds on it and mutates its
status to CANCELLED instead of reporting a conflict. -/
theorem cancel_rejected_returns_success :
    ((place_order initState dZeroQty).1.orders.map Order.status =
      [OrderStatus.rejected]) ∧
    (cancel_order (place_order initState dZeroQty).1 0 "u").2 =
      CancelResult.ok ∧
    ((cancel_order (place_order initState dZeroQty).1 0 "u").1.orders.map
      Order.status = [OrderStatus.cancelled]) := by
  norm_num [place_order, buildOrder, reqKey, parseSide, parseType, parseTif,
      parseQty, validate_order, executeNew, execute_market_order,
      check_limit_order_execution, missingOrNonpos, falsyQ, initState,
      initQuote, sidePrice, cancel_order, findOrder, setStatus,
      lookup_btc, lookup_eth, lookup_xyz, dZeroQty]
  iterate 10 (first
    | (simp; done)
    | norm_num [place_order, buildOrder, reqKey, parseSide, parseType, parseTif,
      parseQty, validate_order, executeNew, execute_market_order,
      check_limit_order_execution, missingOrNonpos, falsyQ, initState,
      initQuote, sidePrice, cancel_order, findOrder, setStatus,
      lookup_btc, lookup_eth, lookup_xyz, dZeroQty]
    | simp
    | skip)

/-- C9: _validate_order applies its checks in the source's order — known
symbol, positive quantity, limit price, stop price, trailing parameters —
the first failing check determining the reported reason; and every spec
that fails validation is stored as a REJECTED order record with the reason
returned to the caller, never discarded silently. -/
theorem validation_order_and_rejected_record (st : EngineState)
    (d : OrderData) (o : Order) (hb : buildOrder st.next_id d = Except.ok o) :
    ValidationPriority st.market_data o ∧
    ∀ e, validate_order st.market_data o = some e →
      place_order st d =
        ({ st with
            orders := st.orders ++ [{ o with status := OrderStatus.rejected }],
            next_id := st.next_id + 1 },
         .rejectedSpec o.id e) := by
  refine ⟨⟨?_, ?_, ?_⟩, ?_⟩
  · intro h1
    unfold validate_order
    rw [if_pos h1]
  · intro h1 h2
    unfold validate_order
    rw [if_neg h1, if_pos h2]
  · intro h1 h2
    refine ⟨?_, ?_, ?_, ?_⟩
    · intro hl hmp
      unfold validate_order
      rw [if_neg h1, if_neg (not_le.mpr h2), if_pos ⟨hl, hmp⟩]
    · intro hst hmsp
      have hc1 : ¬(o.order_type = OrderType.limit ∧
          missingOrNonpos o.price = true) := by
        rintro ⟨hlim, h_⟩
        rcases hst with h | h <;> rw [h] at hlim <;> exact absurd hlim (by decide)
      unfold validate_order
      rw [if_neg h1, if_neg (not_le.mpr h2), if_neg hc1, if_pos ⟨hst, hmsp⟩]
    · intro htr hta htp
      have hc1 : ¬(o.order_type = OrderType.limit ∧
          missingOrNonpos o.price = true) := by
        rintro ⟨hlim, h_⟩
        rw [htr] at hlim
        exact absurd hlim (by decide)
      have hc2 : ¬((o.order_type = OrderType.stopLoss ∨
          o.order_type = OrderType.takeProfit) ∧
          missingOrNonpos o.stop_price = true) := by
        rintro ⟨hst, h_⟩
        rcases hst with h | h <;> rw [htr] at h <;> exact absurd h (by decide)
      unfold validate_order
      rw [if_neg h1, if_neg (not_le.mpr h2), if_neg hc1, if_neg hc2,
        if_pos ⟨htr, hta, htp⟩]
    · intro hA hB hC
      unfold validate_order
      rw [if_neg h1, if_neg (not_le.mpr h2), if_neg hA, if_neg hB, if_neg hC]
  · intro e he
    exact place_order_invalid st d o e hb he

/-- Witness for C9: a spec with an unknown symbol is built, fails the first
check, and is stored as a REJECTED record with the reason returned. -/
theorem validation_order_and_rejected_record_witness :
    ValidationPriority initState.market_data oBadSym ∧
    ∀ e, validate_order initState.market_data oBadSym = some e →
      place_order initState dBadSym =
        ({ initState with
            orders := initState.orders ++
              [{ oBadSym with status := OrderStatus.rejected }],
            next_id := initState.next_id + 1 },
         .rejectedSpec oBadSym.id e) :=
  validation_order_and_rejected_record initState dBadSym oBadSym rfl

/-- C4: a validated market order is filled immediately and completely:
exactly one trade is appended, with the order's full quantity, priced at
the snapshot ask for a buy and bid for a sell, with taker fee
quantity * price * taker_rate; the stored order ends FILLED with
filled_quantity = quantity and average_fill_price the execution price. -/
theorem market_order_immediate_fill (st : EngineState) (d : OrderData)
    (o : Order) (q : Quote) (hb : buildOrder st.next_id d = Except.ok o)
    (hm : o.order_type = OrderType.market)
    (hv : validate_order st.market_data o = none)
    (hq : lookupSym st.market_data o.symbol = some q) :
    ∃ tr : Trade,
      place_order st d =
        ({ st with
            orders := st.orders ++
              [{ o with filled_quantity := o.quantity,
                        average_fill_price := sidePrice o.side q,
                        status := OrderStatus.filled }],
            trades := st.trades ++ [tr], next_id := st.next_id + 1 },
         .placed o.id OrderStatus.filled) ∧
      tr.order_id = o.id ∧ tr.quantity = o.quantity ∧
      tr.price = sidePrice o.side q ∧
      (o.side = OrderSide.buy → tr.price = q.ask) ∧
      (o.side = OrderSide.sell → tr.price = q.bid) ∧
      tr.fee = o.quantity * sidePrice o.side q * st.taker_fee := by
  refine ⟨{ id := st.trades.length, order_id := o.id, symbol := o.symbol,
            side := o.side, quantity := o.quantity,
            price := sidePrice o.side q,
            fee := o.quantity * sidePrice o.side q * st.taker_fee },
    ?_, rfl, rfl, rfl, ?_, ?_, rfl⟩
  · rw [place_order_valid st d o hb hv, executeNew_market st o hm,
      execute_market_eq st o q hq]
  · intro hs
    rw [hs]
    rfl
  · intro hs
    rw [hs]
    rfl

/-- Witness for C4: the spec's scenario seed 1 — a market buy of 0.1 BTC on
the initial snapshot. -/
theorem market_order_immediate_fill_witness :
    ∃ tr : Trade,
      place_order initState dMkt01 =
        ({ initState with
            orders := initState.orders ++
              [{ oMkt01 with filled_quantity := oMkt01.quantity,
                             average_fill_price :=
                               sidePrice oMkt01.side (initQuote (3584/10)),
                             status := OrderStatus.filled }],
            trades := initState.trades ++ [tr],
            next_id := initState.next_id + 1 },
         .placed oMkt01.id OrderStatus.filled) ∧
      tr.order_id = oMkt01.id ∧ tr.quantity = oMkt01.quantity ∧
      tr.price = sidePrice oMkt01.side (initQuote (3584/10)) ∧
      (oMkt01.side = OrderSide.buy → tr.price = (initQuote (3584/10)).ask) ∧
      (oMkt01.side = OrderSide.sell → tr.price = (initQuote (3584/10)).bid) ∧
      tr.fee = oMkt01.quantity * sidePrice oMkt01.side (initQuote (3584/10)) *
        initState.taker_fee :=
  market_order_immediate_fill initState dMkt01 oMkt01 (initQuote (3584/10))
    rfl rfl (by norm_num [validate_order, oMkt01, initState, lookup_btc,
      missingOrNonpos, falsyQ] <;> try simp) rfl

/-- C5: a validated limit order evaluated against the snapshot executes if
and only if it crosses — a buy iff ask ≤ limit price, a sell iff
bid ≥ limit price; when it executes, the trade price and the order's
average_fill_price are the limit price itself, not the snapshot price;
when it does not, the order is stored unchanged with status PENDING. -/
theorem limit_order_crossing (st : EngineState) (d : OrderData) (o : Order)
    (q : Quote) (p : ℚ) (hb : buildOrder st.next_id d = Except.ok o)
    (hl : o.order_type = OrderType.limit)
    (hv : validate_order st.market_data o = none)
    (hq : lookupSym st.market_data o.symbol = some q) (hp : o.price = some p) :
    (((o.side = OrderSide.buy ∧ q.ask ≤ p) ∨
        (o.side = OrderSide.sell ∧ q.bid ≥ p)) →
      ∃ tr : Trade,
        place_order st d =
          ({ st with
              orders := st.orders ++
                [{ o with filled_quantity := o.quantity,
                          average_fill_price := p,
                          status := OrderStatus.filled }],
              trades := st.trades ++ [tr], next_id := st.next_id + 1 },
           .placed o.id OrderStatus.filled) ∧
        tr.price = p ∧ tr.quantity = o.quantity) ∧
    (¬((o.side = OrderSide.buy ∧ q.ask ≤ p) ∨
        (o.side = OrderSide.sell ∧ q.bid ≥ p)) →
      place_order st d =
        ({ st with orders := st.orders ++ [o], next_id := st.next_id + 1 },
         .placed o.id OrderStatus.pending) ∧
      o.status = OrderStatus.pending) := by
  obtain ⟨hid, hst, hfq, hap, hpar⟩ := buildOrder_fields st.next_id d o hb
  constructor
  · intro hcross
    refine ⟨{ id := st.trades.length, order_id := o.id, symbol := o.symbol,
              side := o.side, quantity := o.quantity, price := p,
              fee := o.quantity * p * st.maker_fee }, ?_, rfl, rfl⟩
    rw [place_order_valid st d o hb hv, executeNew_limit st o hl,
      check_limit_eq st o q p hq hp, if_pos hcross]
  · intro hncross
    refine ⟨?_, hst⟩
    rw [place_order_valid st d o hb hv, executeNew_limit st o hl,
      check_limit_eq st o q p hq hp, if_neg hncross, hst]

/-- Witness for C5: the spec's scenario seed 2 — a limit buy of 1 ETH at 22
against ask 22.3223 stays PENDING (and would fill at 22 exactly when the
ask dropped to or below 22). -/
theorem limit_order_crossing_witness :
    (((oLim22.side = OrderSide.buy ∧ (initQuote (223/10)).ask ≤ 22) ∨
        (oLim22.side = OrderSide.sell ∧ (initQuote (223/10)).bid ≥ 22)) →
      ∃ tr : Trade,
        place_order initState dLim22 =
          ({ initState with
              orders := initState.orders ++
                [{ oLim22 with filled_quantity := oLim22.quantity,
                               average_fill_price := 22,
                               status := OrderStatus.filled }],
              trades := initState.trades ++ [tr],
              next_id := initState.next_id + 1 },
           .placed oLim22.id OrderStatus.filled) ∧
        tr.price = 22 ∧ tr.quantity = oLim22.quantity) ∧
    (¬((oLim22.side = OrderSide.buy ∧ (initQuote (223/10)).ask ≤ 22) ∨
        (oLim22.side = OrderSide.sell ∧ (initQuote (223/10)).bid ≥ 22)) →
      place_order initState dLim22 =
        ({ initState with orders := initState.orders ++ [oLim22],
                           next_id := initState.next_id + 1 },
         .placed oLim22.id OrderStatus.pending) ∧
      oLim22.status = OrderStatus.pending) :=
  limit_order_crossing initState dLim22 oLim22 (initQuote (223/10)) 22
    rfl rfl (by norm_num [validate_order, oLim22, initState, lookup_eth,
      missingOrNonpos, falsyQ] <;> try simp) rfl rfl

/-- C3 (amended): a limit order that crosses immediately at placement pays
the MAKER rate, not the taker rate the claim asserts: the source selects
the fee rate by order type (limit = maker, market = taker), not by the
transition that produced the fill.  The trade's fee is
quantity * limit_price * maker_rate. -/
theorem marketable_limit_pays_maker_fee (st : EngineState) (d : OrderData)
    (o : Order) (q : Quote) (p : ℚ)
    (hb : buildOrder st.next_id d = Except.ok o)
    (hl : o.order_type = OrderType.limit)
    (hv : validate_order st.market_data o = none)
    (hq : lookupSym st.market_data o.symbol = some q) (hp : o.price = some p)
    (hcross : (o.side = OrderSide.buy ∧ q.ask ≤ p) ∨
      (o.side = OrderSide.sell ∧ q.bid ≥ p)) :
    ∃ tr : Trade, (place_order st d).1.trades = st.trades ++ [tr] ∧
      tr.quantity = o.quantity ∧ tr.price = p ∧
      tr.fee = o.quantity * p * st.maker_fee := by
  refine ⟨{ id := st.trades.length, order_id := o.id, symbol := o.symbol,
            side := o.side, quantity := o.quantity, price := p,
            fee := o.quantity * p * st.maker_fee }, ?_, rfl, rfl, rfl⟩
  rw [place_order_valid st d o hb hv, executeNew_limit st o hl,
    check_limit_eq st o q p hq hp, if_pos hcross]

/-- Witness for C3's amended statement: the marketable limit buy of 1 ETH at
23 (ask 22.3223 ≤ 23) fills at placement with fee 1 * 23 * maker_rate. -/
theorem marketable_limit_pays_maker_fee_witness :
    ∃ tr : Trade,
      (place_order initState dLim23).1.trades = initState.trades ++ [tr] ∧
      tr.quantity = oLim23.quantity ∧ tr.price = 23 ∧
      tr.fee = oLim23.quantity * 23 * initState.maker_fee :=
  marketable_limit_pays_maker_fee initState dLim23 oLim23
    (initQuote (223/10)) 23 rfl rfl
    (by norm_num [validate_order, oLim23, initState, lookup_eth,
      missingOrNonpos, falsyQ] <;> try simp) rfl rfl
    (Or.inl ⟨rfl, by norm_num [initQuote]⟩)

/-- Counterexample for C3: at the concrete marketable limit buy the fee is
0.023 = 1 * 23 * maker_rate, and this differs from the taker fee
1 * 23 * taker_rate = 0.0345 that the claim asserts. -/
theorem marketable_limit_taker_fee_refuted :
    ((place_order initState dLim23).1.trades.map Trade.fee =
      [(23/1000 : ℚ)]) ∧
    ¬((23/1000 : ℚ) = 1 * 23 * (15/10000 : ℚ)) := by
  constructor
  · norm_num [place_order, buildOrder, reqKey, parseSide, parseType, parseTif,
      parseQty, validate_order, executeNew, execute_market_order,
      check_limit_order_execution, missingOrNonpos, falsyQ, initState,
      initQuote, sidePrice, cancel_order, findOrder, setStatus,
      lookup_btc, lookup_eth, lookup_xyz, dLim23]
    iterate 10 (first
      | (simp; done)
      | norm_num [place_order, buildOrder, reqKey, parseSide, parseType, parseTif,
      parseQty, validate_order, executeNew, execute_market_order,
      check_limit_order_execution, missingOrNonpos, falsyQ, initState,
      initQuote, sidePrice, cancel_order, findOrder, setStatus,
      lookup_btc, lookup_eth, lookup_xyz, dLim23]
      | simp
      | skip)
  · norm_num

/-- C6 (amended): the fill-accounting invariant preserved by every
operation: every stored order has 0 ≤ filled_quantity, has
filled_quantity ≤ quantity whenever its quantity is positive, and the sum
of the quantities of the trades logged against it equals its
filled_quantity.  The claim's unconditional 0 ≤ filled_quantity ≤ quantity
fails for the REJECTED audit record of a spec with negative quantity (see
fill_bound_violated_by_rejected_record): such a record has
filled_quantity = 0 > quantity. -/
theorem fill_accounting_preserved (st : EngineState) (hwf : WF st) :
    (∀ d, WF (place_order st d).1) ∧
    (∀ oid uid, WF (cancel_order st oid uid).1) ∧
    (∀ uid sym sd tq dm, WF (execute_twap_strategy st uid sym sd tq dm).1) ∧
    (∀ uid sym sd tq, WF (execute_vwap_strategy st uid sym sd tq).1) ∧
    (∀ uid sym sd q lp sp, WF (create_oco_order st uid sym sd q lp sp).1) :=
  ⟨fun d => place_order_WF st hwf d,
   fun oid uid => cancel_order_WF st hwf oid uid,
   fun uid sym sd tq dm => twap_WF st hwf uid sym sd tq dm,
   fun uid sym sd tq => vwap_WF st hwf uid sym sd tq,
   fun uid sym sd q lp sp => oco_WF st hwf uid sym sd q lp sp⟩

/-- Witness for C6: the invariant holds in the initial state and is carried
through every operation from there. -/
theorem fill_accounting_preserved_witness :
    WF initState ∧
    ((∀ d, WF (place_order initState d).1) ∧
     (∀ oid uid, WF (cancel_order initState oid uid).1) ∧
     (∀ uid sym sd tq dm,
        WF (execute_twap_strategy initState uid sym sd tq dm).1) ∧
     (∀ uid sym sd tq, WF (execute_vwap_strategy initState uid sym sd tq).1) ∧
     (∀ uid sym sd q lp sp,
        WF (create_oco_order initState uid sym sd q lp sp).1)) :=
  have h : WF initState := by
    refine ⟨⟨?_, ?_⟩, ?_⟩ <;> simp [initState, FillBounds, Fresh]
  ⟨h, fill_accounting_preserved initState h⟩

/-- Counterexample for C6: a market-buy spec with quantity -1 on a valid
symbol is stored as a REJECTED record whose quantity is -1 while
filled_quantity is 0, so filled_quantity ≤ quantity fails in the store. -/
theorem fill_bound_violated_by_rejected_record :
    ((place_order initState dNegQty).1.orders.map
      (fun o => (o.filled_quantity, o.quantity)) = [((0 : ℚ), (-1 : ℚ))]) ∧
    ¬((0 : ℚ) ≤ (-1 : ℚ)) := by
  constructor
  · norm_num [place_order, buildOrder, reqKey, parseSide, parseType, parseTif,
      parseQty, validate_order, executeNew, execute_market_order,
      check_limit_order_execution, missingOrNonpos, falsyQ, initState,
      initQuote, sidePrice, cancel_order, findOrder, setStatus,
      lookup_btc, lookup_eth, lookup_xyz, dNegQty]
    iterate 10 (first
      | (simp; done)
      | norm_num [place_order, buildOrder, reqKey, parseSide, parseType, parseTif,
      parseQty, validate_order, executeNew, execute_market_order,
      check_limit_order_execution, missingOrNonpos, falsyQ, initState,
      initQuote, sidePrice, cancel_order, findOrder, setStatus,
      lookup_btc, lookup_eth, lookup_xyz, dNegQty]
      | simp
      | skip)
  · norm_num

/-- C7: a TWAP execution with positive total quantity, duration at least one
minute, a known symbol and a parsable side creates exactly
N = min(duration_minutes, 20) child orders, each of the equal slice
quantity total_quantity / N, and the child quantities sum exactly to
total_quantity (the model uses exact rationals, so the rounding margin is
zero). -/
theorem twap_children_equal_slices (st : EngineState) (uid sym sdS : String)
    (s : OrderSide) (tq : ℚ) (dm : Nat) (q : Quote)
    (hparse : parseSide sdS = Except.ok s)
    (hq : lookupSym st.market_data sym = some q)
    (htq : 0 < tq) (hdm : 1 ≤ dm) :
    (execute_twap_strategy st uid sym sdS tq dm).2.num_chunks = min dm 20 ∧
    (execute_twap_strategy st uid sym sdS tq dm).2.chunk_size =
      tq / ((min dm 20 : Nat) : ℚ) ∧
    (execute_twap_strategy st uid sym sdS tq dm).2.orders_placed.length =
      min dm 20 ∧
    ∃ new : List Order,
      (execute_twap_strategy st uid sym sdS tq dm).1.orders =
        st.orders ++ new ∧
      new.length = min dm 20 ∧
      (∀ o ∈ new, o.quantity = tq / ((min dm 20 : Nat) : ℚ)) ∧
      (new.map Order.quantity).sum = tq := by
  have hN : 1 ≤ min dm 20 := le_min hdm (by norm_num)
  have hNQ : ((min dm 20 : Nat) : ℚ) ≠ 0 := Nat.cast_ne_zero.mpr (by omega)
  have hcq : 0 < tq / ((min dm 20 : Nat) : ℚ) :=
    div_pos htq (by exact_mod_cast Nat.lt_of_lt_of_le Nat.zero_lt_one hN)
  obtain ⟨new, h1, h2, h3, h4⟩ :=
    placeLoop_market uid sym sdS s _ hparse hcq (min dm 20) st q hq
  unfold execute_twap_strategy
  dsimp only
  refine ⟨rfl, rfl, h3, new, h1, h2, h4, ?_⟩
  rw [sum_map_quantity_const new _ h4, h2, mul_comm, div_mul_cancel₀ tq hNQ]

/-- Witness for C7: the spec's scenario seed 4 — a TWAP buy of 0.5 BTC over
10 minutes on the initial snapshot, giving 10 children of 0.05 each. -/
theorem twap_children_equal_slices_witness :
    (execute_twap_strategy initState "u" "BTC/DGD" "buy" (1/2) 10).2.num_chunks
      = min 10 20 ∧
    (execute_twap_strategy initState "u" "BTC/DGD" "buy" (1/2) 10).2.chunk_size
      = (1/2 : ℚ) / ((min 10 20 : Nat) : ℚ) ∧
    (execute_twap_strategy initState "u" "BTC/DGD" "buy"
      (1/2) 10).2.orders_placed.length = min 10 20 ∧
    ∃ new : List Order,
      (execute_twap_strategy initState "u" "BTC/DGD" "buy" (1/2) 10).1.orders =
        initState.orders ++ new ∧
      new.length = min 10 20 ∧
      (∀ o ∈ new, o.quantity = (1/2 : ℚ) / ((min 10 20 : Nat) : ℚ)) ∧
      (new.map Order.quantity).sum = 1/2 :=
  twap_children_equal_slices initState "u" "BTC/DGD" "buy" OrderSide.buy
    (1/2) 10 (initQuote (3584/10)) rfl lookup_btc (by norm_num) (by norm_num)

/-- C8: a VWAP execution processes the profile buckets in sequence,
allocating min(total_quantity * weight, remaining) to each; the child
order quantities it places sum to the reported executed quantity, which
never exceeds total_quantity; and the loop halts as soon as the remaining
quantity is exhausted, placing nothing further even when buckets remain. -/
theorem vwap_allocation_bounded (st : EngineState) (uid sym sdS : String)
    (s : OrderSide) (tq : ℚ) (q : Quote)
    (hparse : parseSide sdS = Except.ok s)
    (hq : lookupSym st.market_data sym = some q) (htq : 0 ≤ tq) :
    (∃ new : List Order,
      (execute_vwap_strategy st uid sym sdS tq).1.orders = st.orders ++ new ∧
      (new.map Order.quantity).sum =
        (execute_vwap_strategy st uid sym sdS tq).2.executed_quantity ∧
      (execute_vwap_strategy st uid sym sdS tq).2.executed_quantity ≤ tq ∧
      0 ≤ (execute_vwap_strategy st uid sym sdS tq).2.executed_quantity) ∧
    ∀ (st2 : EngineState) (u2 s2 d2 : String) (t2 r2 : ℚ) (b : String × ℚ)
      (rest : List (String × ℚ)), r2 ≤ 0 →
      vwapLoop st2 u2 s2 d2 t2 r2 (b :: rest) = (st2, [], r2) := by
  constructor
  · obtain ⟨new, h1, h2, h3, h4⟩ :=
      vwapLoop_alloc uid sym sdS s tq hparse volumeProfile st tq q hq htq
    unfold execute_vwap_strategy
    dsimp only
    exact ⟨new, h1, by rw [h4], by linarith, by linarith⟩
  · intro st2 u2 s2 d2 t2 r2 b rest h
    exact vwapLoop_halt st2 u2 s2 d2 t2 r2 b rest h

/-- Witness for C8: a VWAP buy of 2 BTC on the initial snapshot. -/
theorem vwap_allocation_bounded_witness :
    (∃ new : List Order,
      (execute_vwap_strategy initState "u" "BTC/DGD" "buy" 2).1.orders =
        initState.orders ++ new ∧
      (new.map Order.quantity).sum =
        (execute_vwap_strategy initState "u" "BTC/DGD" "buy"
          2).2.executed_quantity ∧
      (execute_vwap_strategy initState "u" "BTC/DGD" "buy"
        2).2.executed_quantity ≤ 2 ∧
      0 ≤ (execute_vwap_strategy initState "u" "BTC/DGD" "buy"
        2).2.executed_quantity) ∧
    ∀ (st2 : EngineState) (u2 s2 d2 : String) (t2 r2 : ℚ) (b : String × ℚ)
      (rest : List (String × ℚ)), r2 ≤ 0 →
      vwapLoop st2 u2 s2 d2 t2 r2 (b :: rest) = (st2, [], r2) :=
  vwap_allocation_bounded initState "u" "BTC/DGD" "buy" OrderSide.buy 2
    (initQuote (3584/10)) rfl lookup_btc (by norm_num)

/-- C1: evaluating create_oco_order at a concrete failing input.  An OCO
buy of 1 BTC with limit price 400 (which crosses: ask 358.7584) and stop
price 300 places two orders: the limit sibling fills at placement, yet the
stop sibling stays PENDING — it is not cancelled, in the same transition or
ever — and neither order records a link (parent_order_id is None on both),
refuting the claimed atomic cross-cancellation. -/
theorem oco_limit_fill_leaves_stop_pending :
    (create_oco_order initState "u" "BTC/DGD" "buy" 1 400 300).2.success =
      true ∧
    ((create_oco_order initState "u" "BTC/DGD" "buy" 1 400 300).1.orders.map
      (fun o => (o.status, o.parent_order_id)) =
      [(OrderStatus.filled, none), (OrderStatus.pending, none)]) := by
  norm_num [create_oco_order, ocoLimitData, ocoStopData, place_order,
    buildOrder, reqKey, parseSide, parseType, parseTif, parseQty,
    validate_order, lookupSym, executeNew, execute_market_order,
    check_limit_order_execution, missingOrNonpos, falsyQ, initState,
    initMarketData, initQuote, sidePrice]
  iterate 10 (first
    | (simp; done)
    | norm_num [create_oco_order, ocoLimitData, ocoStopData, place_order,
        buildOrder, reqKey, parseSide, parseType, parseTif, parseQty,
        validate_order, lookupSym, executeNew, execute_market_order,
        check_limit_order_execution, missingOrNonpos, falsyQ, initState,
        initMarketData, initQuote, sidePrice]
    | simp
    | skip)
end Crs
